import Mathlib

/-!
Formalization of the mboot_parts partition-dump tool (mboot_parts.py).

The tool parses textual partition-table output from the mboot bootloader
and emits partition-dump command lines.  We embed the data model
(PartInfo), the validating constructor, the regex-based line parser, the
command formatting and the pipeline as executable Lean definitions, and
prove the specification claims about them.

The Python regex is
  caret backslash-s star (index: digits) colon backslash-s plus
  (name: word chars) backslash-s plus (size: digits) backslash-s at-sign
  backslash-s (offset: digits) backslash-s plus
compiled with re.ASCII and applied with re.match, i.e. anchored at the
start of the line only.  Every pair of adjacent atoms in this regex has
disjoint character classes (digits vs colon, whitespace vs word chars,
digits vs whitespace, whitespace vs at-sign), so greedy matching never
needs to backtrack and the regex is equivalent to the deterministic
maximal-munch parser defined below, stage by stage.
-/

namespace Mboot

/-- Configuration constant INPUT_FILENAME from the source. -/
def INPUT_FILENAME : String := "input.txt"

/-- Configuration constant BUF_ADDR, the staging buffer address. -/
def BUF_ADDR : Int := 0x25000000

/-- Configuration constant SIZE_LIMIT, the per-partition size ceiling. -/
def SIZE_LIMIT : Int := 0x2000000

/-- Configuration constant BLKSZ, the block size in bytes. -/
def BLKSZ : Int := 512

/-- The PartInfo dataclass: index, name, start_block, blocks.
Python integers are unbounded, so the integer fields are Int. -/
structure PartInfo where
  index : Int
  name : String
  start_block : Int
  blocks : Int
  deriving DecidableEq

/-- PartInfo constructor with validation: raises ValueError (modelled as
none) when index, start_block or blocks is negative, in that order. -/
def PartInfo.init (index : Int) (name : String) (start_block : Int)
    (blocks : Int) : Option PartInfo :=
  if index < 0 then none
  else if start_block < 0 then none
  else if blocks < 0 then none
  else some ⟨index, name, start_block, blocks⟩

/-- PartInfo.size: blocks times BLKSZ. -/
def PartInfo.size (p : PartInfo) : Int := p.blocks * BLKSZ

/-- PartInfo.start: start_block times BLKSZ. -/
def PartInfo.start (p : PartInfo) : Int := p.start_block * BLKSZ

/-- PartInfo.end: start plus size. -/
def PartInfo.end_ (p : PartInfo) : Int := p.start + p.size

/-- Lowercase hexadecimal digit string of a natural number, as produced
by the Python format spec x (no prefix, no padding). -/
def natHexStr (n : Nat) : String := String.mk (Nat.toDigits 16 n)

/-- Python hexadecimal formatting of an int: minus sign for negatives,
lowercase digits. -/
def intHexStr (i : Int) : String :=
  if i < 0 then "-" ++ natHexStr i.natAbs else natHexStr i.natAbs

/-- Python decimal formatting of an int (format spec d). -/
def intDecStr (i : Int) : String :=
  if i < 0 then "-" ++ String.mk (Nat.toDigits 10 i.natAbs)
  else String.mk (Nat.toDigits 10 i.natAbs)

/-- PartInfo.make_dump_command: builds the compound mmc-read plus
fatwrite command string exactly as the Python f-strings do. -/
def PartInfo.make_dump_command (p : PartInfo) : String :=
  let filename := "part" ++ (intDecStr p.index ++ ".bin")
  let x_addr := "0x" ++ intHexStr BUF_ADDR
  let x_size := "0x" ++ intHexStr p.size
  let cmd_read := "mmc read.p " ++ (x_addr ++ (" " ++ (p.name ++ (" " ++ x_size))))
  let cmd_write := "fatwrite usb 0:1 " ++ (x_addr ++ (" " ++ (filename ++ (" " ++ x_size))))
  cmd_read ++ ("; " ++ cmd_write)

/-- ASCII whitespace class of the Python regex backslash-s under
re.ASCII: space, tab, newline, vertical tab, form feed, carriage
return. -/
def isSpaceA (c : Char) : Bool :=
  c == ' ' || c == '\t' || c == '\n' || c == '\x0b' || c == '\x0c' || c == '\r'

/-- ASCII digit class of the Python regex backslash-d under re.ASCII. -/
def isDigitA (c : Char) : Bool := c.isDigit

/-- ASCII word class of the Python regex backslash-w under re.ASCII:
letters, digits, underscore. -/
def isWordA (c : Char) : Bool := c.isAlphanum || c == '_'

/-- Value of a string of ASCII decimal digits, as computed by the Python
int constructor on the matched digit groups. -/
def natOfDigits (ds : List Char) : Nat :=
  ds.foldl (fun acc c => acc * 10 + (c.toNat - '0'.toNat)) 0

/-- Stage 4 of the regex: offset digits (backslash-d plus) followed by
at least one whitespace character (backslash-s plus); the rest of the
line is unconstrained because the regex has no end anchor.  On success
the PartInfo constructor is invoked as in PartInfo.parse, with the
offset group as start_block and the size group as blocks. -/
def parseAfterAt (idxD nameD sizeD r7 : List Char) : Option PartInfo :=
  let offD := r7.takeWhile isDigitA
  let r8 := r7.dropWhile isDigitA
  if offD.isEmpty then none
  else
    match r8 with
    | c3 :: _ =>
        if isSpaceA c3 then
          PartInfo.init ((natOfDigits idxD : Int)) (String.mk nameD)
            ((natOfDigits offD : Int)) ((natOfDigits sizeD : Int))
        else none
    | [] => none

/-- Stage 3 of the regex: exactly one whitespace character, the literal
at-sign, exactly one whitespace character. -/
def parseAfterSize (idxD nameD sizeD r6 : List Char) : Option PartInfo :=
  match r6 with
  | c1 :: a :: c2 :: r7 =>
      if isSpaceA c1 && (a == '@') && isSpaceA c2 then
        parseAfterAt idxD nameD sizeD r7
      else none
  | _ => none

/-- Stage 2 of the regex: whitespace run (backslash-s plus) then the
size digit group (backslash-d plus). -/
def parseAfterName (idxD nameD r4 : List Char) : Option PartInfo :=
  if (r4.takeWhile isSpaceA).isEmpty then none
  else
    let r5 := r4.dropWhile isSpaceA
    let sizeD := r5.takeWhile isDigitA
    let r6 := r5.dropWhile isDigitA
    if sizeD.isEmpty then none
    else parseAfterSize idxD nameD sizeD r6

/-- Stage 1 of the regex: whitespace run (backslash-s plus) then the
name group (backslash-w plus). -/
def parseAfterColon (idxD r2 : List Char) : Option PartInfo :=
  if (r2.takeWhile isSpaceA).isEmpty then none
  else
    let r3 := r2.dropWhile isSpaceA
    let nameD := r3.takeWhile isWordA
    let r4 := r3.dropWhile isWordA
    if nameD.isEmpty then none
    else parseAfterName idxD nameD r4

/-- Stage 0 of the regex: optional leading whitespace (backslash-s
star), the index digit group (backslash-d plus), the literal colon. -/
def parseData (line : List Char) : Option PartInfo :=
  let r0 := line.dropWhile isSpaceA
  let idxD := r0.takeWhile isDigitA
  let r1 := r0.dropWhile isDigitA
  if idxD.isEmpty then none
  else
    match r1 with
    | c :: r2 => if c == ':' then parseAfterColon idxD r2 else none
    | [] => none

/-- PartInfo.parse: match the compiled regex against the line; on
failure raise ValueError (modelled as none), on success construct the
record from the index, offset and size groups. -/
def PartInfo.parse (line : String) : Option PartInfo := parseData line.data

/-- slurp, with the file reading boundary made explicit: the lines
argument stands for the successive results of readline on the input
file (each including its trailing newline, when present).  Each line is
parsed in order; a ValueError from parse propagates, producing no
list. -/
def slurp : List String → Option (List PartInfo)
  | [] => some []
  | l :: ls =>
      match PartInfo.parse l with
      | none => none
      | some p =>
          match slurp ls with
          | none => none
          | some ps => some (p :: ps)

/-- print_dump_commands: one printed line per record, in order; a
record whose size exceeds SIZE_LIMIT yields the skip comment built by
the Python f-string, any other record yields make_dump_command. -/
def print_dump_commands : List PartInfo → List String
  | [] => []
  | p :: ps =>
      if p.size > SIZE_LIMIT then
        ("# skipping " ++ (p.name ++ (" (size 0x" ++ (intHexStr p.size ++
          (" > 0x" ++ (intHexStr SIZE_LIMIT ++ ")")))))) :: print_dump_commands ps
      else
        p.make_dump_command :: print_dump_commands ps

/-- main, with the file reading boundary made explicit as in slurp: the
whole output of the run (the printed lines, in order), or none when a
parse error aborts the run before anything is printed. -/
def mainOutput (lines : List String) : Option (List String) :=
  (slurp lines).map print_dump_commands

/-- Emitted line for one record as the specification claim words it:
for an oversize record (blocks times 512 strictly above 0x2000000) the
comment hash skipping name (size 0x hex above 0x hex), otherwise the
compound command mmc read.p 0x25000000 name 0x size-hex semicolon
fatwrite usb 0:1 0x25000000 part index .bin 0x size-hex, with lowercase
hex and unpadded decimal index.  This definition follows the claim
text, to be compared with print_dump_commands. -/
def emitLineClaim (p : PartInfo) : String :=
  if p.blocks * 512 > (0x2000000 : Int) then
    "# skipping " ++ (p.name ++ (" (size 0x" ++ (intHexStr (p.blocks * 512) ++
      (" > 0x" ++ ("2000000" ++ ")")))))
  else
    ("mmc read.p " ++ ("0x25000000" ++ (" " ++ (p.name ++
      (" " ++ ("0x" ++ intHexStr (p.blocks * 512))))))) ++
    ("; " ++ ("fatwrite usb 0:1 " ++ ("0x25000000" ++ (" " ++
      (("part" ++ (intDecStr p.index ++ ".bin")) ++
        (" " ++ ("0x" ++ intHexStr (p.blocks * 512))))))))

/-- Head of the list, when present, fails the predicate.  This is the
side condition under which greedy maximal munch stops exactly at a
component boundary. -/
def headFails (p : Char → Bool) : List Char → Prop
  | [] => True
  | c :: _ => p c = false

lemma isSpaceA_cases {c : Char} (h : isSpaceA c = true) :
    c = ' ' ∨ c = '\t' ∨ c = '\n' ∨ c = '\x0b' ∨ c = '\x0c' ∨ c = '\r' := by
  simp only [isSpaceA, Bool.or_eq_true, beq_iff_eq] at h
  tauto

lemma not_digit_of_space {c : Char} (h : isSpaceA c = true) : isDigitA c = false := by
  rcases isSpaceA_cases h with rfl | rfl | rfl | rfl | rfl | rfl <;> decide

lemma not_word_of_space {c : Char} (h : isSpaceA c = true) : isWordA c = false := by
  rcases isSpaceA_cases h with rfl | rfl | rfl | rfl | rfl | rfl <;> decide

lemma not_at_of_space {c : Char} (h : isSpaceA c = true) : (c == '@') = false := by
  rcases isSpaceA_cases h with rfl | rfl | rfl | rfl | rfl | rfl <;> decide

lemma not_space_of_digit {c : Char} (h : isDigitA c = true) : isSpaceA c = false := by
  cases hs : isSpaceA c
  · rfl
  · rw [not_digit_of_space hs] at h
    exact Bool.noConfusion h

lemma not_space_of_word {c : Char} (h : isWordA c = true) : isSpaceA c = false := by
  cases hs : isSpaceA c
  · rfl
  · rw [not_word_of_space hs] at h
    exact Bool.noConfusion h

lemma takeWhile_append_stop {p : Char → Bool} {l : List Char} (rest : List Char)
    (hl : ∀ c ∈ l, p c = true) (hr : headFails p rest) :
    (l ++ rest).takeWhile p = l := by
  rw [List.takeWhile_append_of_pos hl]
  cases rest with
  | nil => simp
  | cons c t =>
      have hc : p c = false := hr
      simp [hc]

lemma dropWhile_append_stop {p : Char → Bool} {l : List Char} (rest : List Char)
    (hl : ∀ c ∈ l, p c = true) (hr : headFails p rest) :
    (l ++ rest).dropWhile p = rest := by
  rw [List.dropWhile_append_of_pos hl]
  cases rest with
  | nil => simp
  | cons c t =>
      have hc : p c = false := hr
      simp [hc]

lemma parseData_step (ws0 idxD r2 : List Char)
    (hws0 : ∀ c ∈ ws0, isSpaceA c = true)
    (hidxne : idxD ≠ []) (hidx : ∀ c ∈ idxD, isDigitA c = true) :
    parseData (ws0 ++ (idxD ++ (':' :: r2))) = parseAfterColon idxD r2 := by
  obtain ⟨d, t, rfl⟩ := List.exists_cons_of_ne_nil hidxne
  have hd : isDigitA d = true := hidx d (List.mem_cons_self d t)
  have h0 : (ws0 ++ ((d :: t) ++ (':' :: r2))).dropWhile isSpaceA = (d :: t) ++ (':' :: r2) :=
    dropWhile_append_stop _ hws0 (not_space_of_digit hd)
  have h1 : ((d :: t) ++ (':' :: r2)).takeWhile isDigitA = d :: t :=
    takeWhile_append_stop _ hidx (by show isDigitA ':' = false; decide)
  have h2 : ((d :: t) ++ (':' :: r2)).dropWhile isDigitA = ':' :: r2 :=
    dropWhile_append_stop _ hidx (by show isDigitA ':' = false; decide)
  simp only [parseData, h0, h1, h2, List.isEmpty_cons]
  simp

lemma parseAfterColon_step (idxD ws1 nameD r4 : List Char)
    (hws1ne : ws1 ≠ []) (hws1 : ∀ c ∈ ws1, isSpaceA c = true)
    (hnamene : nameD ≠ []) (hname : ∀ c ∈ nameD, isWordA c = true)
    (hr4 : headFails isWordA r4) :
    parseAfterColon idxD (ws1 ++ (nameD ++ r4)) = parseAfterName idxD nameD r4 := by
  obtain ⟨s, ts, rfl⟩ := List.exists_cons_of_ne_nil hws1ne
  obtain ⟨n, tn, rfl⟩ := List.exists_cons_of_ne_nil hnamene
  have hn : isWordA n = true := hname n (List.mem_cons_self n tn)
  have h0 : ((s :: ts) ++ ((n :: tn) ++ r4)).takeWhile isSpaceA = s :: ts :=
    takeWhile_append_stop _ hws1 (not_space_of_word hn)
  have h1 : ((s :: ts) ++ ((n :: tn) ++ r4)).dropWhile isSpaceA = (n :: tn) ++ r4 :=
    dropWhile_append_stop _ hws1 (not_space_of_word hn)
  have h2 : ((n :: tn) ++ r4).takeWhile isWordA = n :: tn :=
    takeWhile_append_stop _ hname hr4
  have h3 : ((n :: tn) ++ r4).dropWhile isWordA = r4 :=
    dropWhile_append_stop _ hname hr4
  simp only [parseAfterColon, h0, h1, h2, h3, List.isEmpty_cons]
  simp

lemma parseAfterName_step (idxD nameD ws2 sizeD r6 : List Char)
    (hws2ne : ws2 ≠ []) (hws2 : ∀ c ∈ ws2, isSpaceA c = true)
    (hsizene : sizeD ≠ []) (hsize : ∀ c ∈ sizeD, isDigitA c = true)
    (hr6 : headFails isDigitA r6) :
    parseAfterName idxD nameD (ws2 ++ (sizeD ++ r6)) = parseAfterSize idxD nameD sizeD r6 := by
  obtain ⟨s, ts, rfl⟩ := List.exists_cons_of_ne_nil hws2ne
  obtain ⟨d, td, rfl⟩ := List.exists_cons_of_ne_nil hsizene
  have hd : isDigitA d = true := hsize d (List.mem_cons_self d td)
  have h0 : ((s :: ts) ++ ((d :: td) ++ r6)).takeWhile isSpaceA = s :: ts :=
    takeWhile_append_stop _ hws2 (not_space_of_digit hd)
  have h1 : ((s :: ts) ++ ((d :: td) ++ r6)).dropWhile isSpaceA = (d :: td) ++ r6 :=
    dropWhile_append_stop _ hws2 (not_space_of_digit hd)
  have h2 : ((d :: td) ++ r6).takeWhile isDigitA = d :: td :=
    takeWhile_append_stop _ hsize hr6
  have h3 : ((d :: td) ++ r6).dropWhile isDigitA = r6 :=
    dropWhile_append_stop _ hsize hr6
  simp only [parseAfterName, h0, h1, h2, h3, List.isEmpty_cons]
  simp

lemma parseAfterSize_step (idxD nameD sizeD r7 : List Char) (c1 c2 : Char)
    (hc1 : isSpaceA c1 = true) (hc2 : isSpaceA c2 = true) :
    parseAfterSize idxD nameD sizeD (c1 :: '@' :: c2 :: r7) =
      parseAfterAt idxD nameD sizeD r7 := by
  simp [parseAfterSize, hc1, hc2]

lemma parseAfterAt_step (idxD nameD sizeD offD tail : List Char)
    (hoffne : offD ≠ []) (hoff : ∀ c ∈ offD, isDigitA c = true)
    (htail : headFails isDigitA tail) :
    parseAfterAt idxD nameD sizeD (offD ++ tail) =
      match tail with
      | [] => none
      | c3 :: _ =>
          if isSpaceA c3 then
            PartInfo.init ((natOfDigits idxD : Int)) (String.mk nameD)
              ((natOfDigits offD : Int)) ((natOfDigits sizeD : Int))
          else none := by
  obtain ⟨o, ot, rfl⟩ := List.exists_cons_of_ne_nil hoffne
  have h0 : ((o :: ot) ++ tail).takeWhile isDigitA = o :: ot :=
    takeWhile_append_stop _ hoff htail
  have h1 : ((o :: ot) ++ tail).dropWhile isDigitA = tail :=
    dropWhile_append_stop _ hoff htail
  simp only [parseAfterAt, h0, h1, List.isEmpty_cons]
  cases tail with
  | nil => simp
  | cons c3 r => simp

lemma parseAfterSize_none_of_not_at (idxD nameD sizeD : List Char) (c1 b c2 : Char)
    (r : List Char) (hb : (b == '@') = false) :
    parseAfterSize idxD nameD sizeD (c1 :: b :: c2 :: r) = none := by
  simp [parseAfterSize, hb]

lemma parseAfterAt_none_of_head_not_digit (idxD nameD sizeD : List Char) (c : Char)
    (r : List Char) (hc : isDigitA c = false) :
    parseAfterAt idxD nameD sizeD (c :: r) = none := by
  simp [parseAfterAt, hc]

lemma init_natCast (n a b : Nat) (s : String) :
    PartInfo.init ((n : Int)) s ((a : Int)) ((b : Int)) =
      some ⟨(n : Int), s, (a : Int), (b : Int)⟩ := by
  unfold PartInfo.init
  rw [if_neg (by omega), if_neg (by omega), if_neg (by omega)]

/-- Master lemma: the parser on a line decomposed into its regex
components, with an arbitrary remainder after the offset digits whose
head is not a digit.  The result only depends on whether a whitespace
character follows the offset group. -/
lemma parse_structured (ws0 idxD ws1 nameD ws2 sizeD offD tail : List Char) (c1 c2 : Char)
    (hws0 : ∀ c ∈ ws0, isSpaceA c = true)
    (hidxne : idxD ≠ []) (hidx : ∀ c ∈ idxD, isDigitA c = true)
    (hws1ne : ws1 ≠ []) (hws1 : ∀ c ∈ ws1, isSpaceA c = true)
    (hnamene : nameD ≠ []) (hname : ∀ c ∈ nameD, isWordA c = true)
    (hws2ne : ws2 ≠ []) (hws2 : ∀ c ∈ ws2, isSpaceA c = true)
    (hsizene : sizeD ≠ []) (hsize : ∀ c ∈ sizeD, isDigitA c = true)
    (hc1 : isSpaceA c1 = true) (hc2 : isSpaceA c2 = true)
    (hoffne : offD ≠ []) (hoff : ∀ c ∈ offD, isDigitA c = true)
    (htail : headFails isDigitA tail) :
    parseData (ws0 ++ (idxD ++ (':' :: (ws1 ++ (nameD ++ (ws2 ++ (sizeD ++ (c1 :: '@' :: c2 :: (offD ++ tail))))))))) =
      match tail with
      | [] => none
      | c3 :: _ =>
          if isSpaceA c3 then
            PartInfo.init ((natOfDigits idxD : Int)) (String.mk nameD)
              ((natOfDigits offD : Int)) ((natOfDigits sizeD : Int))
          else none := by
  obtain ⟨w2, tw2, rfl⟩ := List.exists_cons_of_ne_nil hws2ne
  have hw2 : isSpaceA w2 = true := hws2 w2 (List.mem_cons_self w2 tw2)
  rw [parseData_step _ _ _ hws0 hidxne hidx]
  rw [parseAfterColon_step idxD ws1 nameD
    ((w2 :: tw2) ++ (sizeD ++ (c1 :: '@' :: c2 :: (offD ++ tail))))
    hws1ne hws1 hnamene hname (not_word_of_space hw2)]
  rw [parseAfterName_step idxD nameD (w2 :: tw2) sizeD
    (c1 :: '@' :: c2 :: (offD ++ tail))
    hws2ne hws2 hsizene hsize (not_digit_of_space hc1)]
  rw [parseAfterSize_step _ _ _ _ _ _ hc1 hc2]
  exact parseAfterAt_step _ _ _ _ _ hoffne hoff htail

lemma parse_mk (l : List Char) : PartInfo.parse (String.mk l) = parseData l := rfl

/-- Test line of end-to-end scenario 1. -/
def lineBoot : String := "0: boot 8192 @ 2048   "

/-- Witness line for the pattern round-trip claim. -/
def lineW1 : String := " 7: boot 8192 @ 2048  "

/-- Empty input line. -/
def lineEmpty : String := ""

/-- Line missing the at-sign separator. -/
def lineNoAt : String := "0: boot 8192 2048 "

/-- Line with a non-numeric size field. -/
def lineBadSize : String := "0: boot xyz @ 2048 "

/-- Well-formed line with non-whitespace text after the offset field
and its following whitespace character. -/
def lineGarbage : String := "0: boot 8192 @ 2048 junk"

/-- Well-formed fields but nothing at all after the offset digits. -/
def lineNoTrail : String := "0: boot 8192 @ 2048"

/-- Line with two whitespace characters before the at-sign. -/
def lineWideAt : String := "0: a 1  @ 2 "

/-- Unparsable line used for the abort scenario. -/
def lineBad : String := "garbage"

/-- C1: every input line matching the documented pattern (leading
whitespace, INDEX, colon, whitespace, NAME, whitespace, SIZE, a
whitespace-surrounded at-sign, OFFSET, trailing whitespace; INDEX,
SIZE, OFFSET decimal digit runs, NAME a word of letters, digits and
underscores) parses successfully into a record whose index is INDEX,
name is NAME, start_block is OFFSET and blocks is SIZE. -/
theorem parse_matching_line
    (ws0 idxD ws1 nameD ws2 sizeD offD ws3 : List Char) (c1 c2 : Char)
    (hws0 : ∀ c ∈ ws0, isSpaceA c = true)
    (hidxne : idxD ≠ []) (hidx : ∀ c ∈ idxD, isDigitA c = true)
    (hws1ne : ws1 ≠ []) (hws1 : ∀ c ∈ ws1, isSpaceA c = true)
    (hnamene : nameD ≠ []) (hname : ∀ c ∈ nameD, isWordA c = true)
    (hws2ne : ws2 ≠ []) (hws2 : ∀ c ∈ ws2, isSpaceA c = true)
    (hsizene : sizeD ≠ []) (hsize : ∀ c ∈ sizeD, isDigitA c = true)
    (hc1 : isSpaceA c1 = true) (hc2 : isSpaceA c2 = true)
    (hoffne : offD ≠ []) (hoff : ∀ c ∈ offD, isDigitA c = true)
    (hws3ne : ws3 ≠ []) (hws3 : ∀ c ∈ ws3, isSpaceA c = true) :
    PartInfo.parse (String.mk (ws0 ++ (idxD ++ (':' :: (ws1 ++ (nameD ++ (ws2 ++ (sizeD ++ (c1 :: '@' :: c2 :: (offD ++ ws3)))))))))) =
      some ⟨((natOfDigits idxD : Int)), String.mk nameD,
        ((natOfDigits offD : Int)), ((natOfDigits sizeD : Int))⟩ := by
  obtain ⟨s3, t3, rfl⟩ := List.exists_cons_of_ne_nil hws3ne
  have hs3 : isSpaceA s3 = true := hws3 s3 (List.mem_cons_self s3 t3)
  have h := parse_structured ws0 idxD ws1 nameD ws2 sizeD offD (s3 :: t3) c1 c2
    hws0 hidxne hidx hws1ne hws1 hnamene hname hws2ne hws2 hsizene hsize hc1 hc2
    hoffne hoff (not_digit_of_space hs3)
  rw [parse_mk, h]
  simp only [hs3, if_true]
  exact init_natCast _ _ _ _

/-- Witness for the pattern round-trip claim at a concrete line. -/
theorem parse_matching_line_witness :
    PartInfo.parse lineW1 = some ⟨7, "boot", 2048, 8192⟩ := by
  have h := parse_matching_line [' '] ['7'] [' '] ['b', 'o', 'o', 't'] [' ']
    ['8', '1', '9', '2'] ['2', '0', '4', '8'] [' ', ' '] ' ' ' '
    (by decide) (by decide) (by decide) (by decide) (by decide) (by decide)
    (by decide) (by decide) (by decide) (by decide) (by decide) (by decide)
    (by decide) (by decide) (by decide) (by decide) (by decide)
  have e1 : String.mk ([' '] ++ (['7'] ++ (':' :: ([' '] ++ (['b', 'o', 'o', 't'] ++ ([' '] ++ (['8', '1', '9', '2'] ++ (' ' :: '@' :: ' ' :: (['2', '0', '4', '8'] ++ [' ', ' ']))))))))) = lineW1 := by decide
  have e2 : (some (⟨((natOfDigits ['7'] : Int)), String.mk ['b', 'o', 'o', 't'],
      ((natOfDigits ['2', '0', '4', '8'] : Int)), ((natOfDigits ['8', '1', '9', '2'] : Int))⟩ : PartInfo) : Option PartInfo) =
      some ⟨7, "boot", 2048, 8192⟩ := by decide
  rw [e1, e2] at h
  exact h

/-- C3: end-to-end scenario 1.  The line parses to index 0, name boot,
start_block 2048, blocks 8192; its size is 4194304 bytes, below the
limit; the emitted command is exactly the expected compound command. -/
theorem scenario_boot_line :
    PartInfo.parse lineBoot = some ⟨0, "boot", 2048, 8192⟩ ∧
    (⟨0, "boot", 2048, 8192⟩ : PartInfo).size = 4194304 ∧
    (4194304 : Int) < SIZE_LIMIT ∧
    (⟨0, "boot", 2048, 8192⟩ : PartInfo).make_dump_command =
      "mmc read.p 0x25000000 boot 0x400000; fatwrite usb 0:1 0x25000000 part0.bin 0x400000" := by
  refine ⟨by decide, by decide, by decide, by decide⟩

/-- C4 counterexample: the claim says a line with non-whitespace text
after the offset field is rejected, but the regex is applied with
re.match and has no end anchor: once one whitespace character follows
the offset digits the rest of the line is ignored, so this line is
accepted. -/
theorem parse_trailing_text_counterexample :
    PartInfo.parse lineGarbage = some ⟨0, "boot", 2048, 8192⟩ := by decide

/-- C4 amended: parse rejects every line that does not match the
pattern, including the empty string, a line missing the at-sign and a
line with a non-numeric size; however, because the regex is only
anchored at the start of the line, text after the first whitespace
character following the offset digits is ignored rather than
rejected. -/
theorem parse_rejects_nonmatching_lines :
    PartInfo.parse lineEmpty = none ∧
    PartInfo.parse lineNoAt = none ∧
    PartInfo.parse lineBadSize = none ∧
    PartInfo.parse lineGarbage ≠ none := by
  refine ⟨by decide, by decide, by decide, by decide⟩

/-- C9: a line that ends immediately after the offset digits, with all
four fields otherwise well-formed, is rejected: the regex requires at
least one whitespace character after the offset group. -/
theorem parse_rejects_missing_trailing_ws
    (ws0 idxD ws1 nameD ws2 sizeD offD : List Char) (c1 c2 : Char)
    (hws0 : ∀ c ∈ ws0, isSpaceA c = true)
    (hidxne : idxD ≠ []) (hidx : ∀ c ∈ idxD, isDigitA c = true)
    (hws1ne : ws1 ≠ []) (hws1 : ∀ c ∈ ws1, isSpaceA c = true)
    (hnamene : nameD ≠ []) (hname : ∀ c ∈ nameD, isWordA c = true)
    (hws2ne : ws2 ≠ []) (hws2 : ∀ c ∈ ws2, isSpaceA c = true)
    (hsizene : sizeD ≠ []) (hsize : ∀ c ∈ sizeD, isDigitA c = true)
    (hc1 : isSpaceA c1 = true) (hc2 : isSpaceA c2 = true)
    (hoffne : offD ≠ []) (hoff : ∀ c ∈ offD, isDigitA c = true) :
    PartInfo.parse (String.mk (ws0 ++ (idxD ++ (':' :: (ws1 ++ (nameD ++ (ws2 ++ (sizeD ++ (c1 :: '@' :: c2 :: offD))))))))) = none := by
  have h := parse_structured ws0 idxD ws1 nameD ws2 sizeD offD [] c1 c2
    hws0 hidxne hidx hws1ne hws1 hnamene hname hws2ne hws2 hsizene hsize hc1 hc2
    hoffne hoff trivial
  rw [List.append_nil] at h
  rw [parse_mk]
  exact h

/-- Witness for the missing-trailing-whitespace rejection at a concrete
line, a final file line without a terminating newline. -/
theorem parse_rejects_missing_trailing_ws_witness :
    PartInfo.parse lineNoTrail = none := by
  have h := parse_rejects_missing_trailing_ws [] ['0'] [' '] ['b', 'o', 'o', 't'] [' ']
    ['8', '1', '9', '2'] ['2', '0', '4', '8'] ' ' ' '
    (by decide) (by decide) (by decide) (by decide) (by decide) (by decide)
    (by decide) (by decide) (by decide) (by decide) (by decide) (by decide)
    (by decide) (by decide) (by decide)
  have e1 : String.mk ([] ++ (['0'] ++ (':' :: ([' '] ++ (['b', 'o', 'o', 't'] ++ ([' '] ++ (['8', '1', '9', '2'] ++ (' ' :: '@' :: ' ' :: ['2', '0', '4', '8'])))))))) = lineNoTrail := by decide
  rw [e1] at h
  exact h

/-- C2: the emitter turns each record, in input order, into exactly the
line the claim describes: a skip comment when blocks times 512 strictly
exceeds 0x2000000 and the compound dump command otherwise (a record
whose size equals the limit exactly still emits the command).  The map
form shows a skipped record leaves the output of later records
unchanged. -/
theorem print_dump_commands_matches_claim (ps : List PartInfo) :
    print_dump_commands ps = ps.map emitLineClaim := by
  induction ps with
  | nil => rfl
  | cons p t ih =>
    have haddr : ("0x" ++ intHexStr BUF_ADDR : String) = "0x25000000" := by decide
    have hlim : intHexStr SIZE_LIMIT = "2000000" := by decide
    simp only [print_dump_commands, List.map_cons, ih]
    by_cases h : p.size > SIZE_LIMIT
    · have h2 : p.blocks * 512 > (0x2000000 : Int) := h
      rw [if_pos h, emitLineClaim, if_pos h2, hlim]
      rfl
    · have h2 : ¬ p.blocks * 512 > (0x2000000 : Int) := h
      rw [if_neg h, emitLineClaim, if_neg h2, PartInfo.make_dump_command, haddr]
      rfl

/-- C5: the validating constructor fails on a negative index, negative
start_block or negative blocks, and succeeds whenever all three integer
fields are non-negative, index 0 included. -/
theorem init_validation (index : Int) (name : String) (start_block blocks : Int) :
    ((index < 0 ∨ start_block < 0 ∨ blocks < 0) →
      PartInfo.init index name start_block blocks = none) ∧
    (0 ≤ index → 0 ≤ start_block → 0 ≤ blocks →
      PartInfo.init index name start_block blocks = some ⟨index, name, start_block, blocks⟩) := by
  constructor
  · rintro (h | h | h)
    · simp [PartInfo.init, h]
    · rcases lt_or_ge index 0 with hi | hi
      · simp [PartInfo.init, hi]
      · have hi2 : ¬ index < 0 := not_lt.mpr hi
        simp [PartInfo.init, hi2, h]
    · rcases lt_or_ge index 0 with hi | hi
      · simp [PartInfo.init, hi]
      · have hi2 : ¬ index < 0 := not_lt.mpr hi
        rcases lt_or_ge start_block 0 with hs | hs
        · simp [PartInfo.init, hi2, hs]
        · have hs2 : ¬ start_block < 0 := not_lt.mpr hs
          simp [PartInfo.init, hi2, hs2, h]
  · intro h1 h2 h3
    simp [PartInfo.init, not_lt.mpr h1, not_lt.mpr h2, not_lt.mpr h3]

/-- Witness for the constructor validation at concrete field values. -/
theorem init_validation_witness :
    PartInfo.init (-1) "boot" 2048 8192 = none ∧
    PartInfo.init 0 "boot" 2048 8192 = some ⟨0, "boot", 2048, 8192⟩ :=
  ⟨(init_validation (-1) "boot" 2048 8192).1 (Or.inl (by decide)),
   (init_validation 0 "boot" 2048 8192).2 (by decide) (by decide) (by decide)⟩

/-- C6: the derived quantities satisfy size = blocks times 512,
start = start_block times 512 and end = start plus size, in exact
integer arithmetic. -/
theorem size_start_end_relations (p : PartInfo) :
    p.size = p.blocks * 512 ∧ p.start = p.start_block * 512 ∧ p.end_ = p.start + p.size :=
  ⟨rfl, rfl, rfl⟩

lemma slurp_none_of_mem (lines : List String) (l : String) (hmem : l ∈ lines)
    (hp : PartInfo.parse l = none) : slurp lines = none := by
  induction lines with
  | nil => cases hmem
  | cons a t ih =>
    rcases List.mem_cons.mp hmem with rfl | hmem2
    · simp [slurp, hp]
    · cases hpa : PartInfo.parse a with
      | none => simp [slurp, hpa]
      | some p => simp [slurp, hpa, ih hmem2]

/-- C7: when any input line fails to parse, the whole run produces no
output at all, partitions listed before the bad line included, because
slurp parses every line before print_dump_commands emits anything. -/
theorem parse_error_aborts_run (lines : List String) (l : String)
    (hmem : l ∈ lines) (hp : PartInfo.parse l = none) :
    mainOutput lines = none := by
  show (slurp lines).map print_dump_commands = none
  rw [slurp_none_of_mem lines l hmem hp]
  rfl

/-- Witness: a good line followed by an unparsable one yields no
output at all. -/
theorem parse_error_aborts_run_witness :
    mainOutput [lineBoot, lineBad] = none :=
  parse_error_aborts_run [lineBoot, lineBad] lineBad (by decide) (by decide)

/-- C8: an input file with zero lines yields zero output lines and a
successful run. -/
theorem empty_input_empty_output : mainOutput [] = some [] := rfl

/-- C10: the at-sign separator is accepted only with exactly one
whitespace character on each side.  Two or more whitespace characters
before or after the at-sign reject the line, while multi-character
whitespace runs at the start of the line, after the index colon and
after the name are accepted. -/
theorem at_sign_spacing
    (ws0 idxD ws1 nameD ws2 sizeD wsA wsB offD ws3 : List Char)
    (hws0 : ∀ c ∈ ws0, isSpaceA c = true)
    (hidxne : idxD ≠ []) (hidx : ∀ c ∈ idxD, isDigitA c = true)
    (hws1ne : ws1 ≠ []) (hws1 : ∀ c ∈ ws1, isSpaceA c = true)
    (hnamene : nameD ≠ []) (hname : ∀ c ∈ nameD, isWordA c = true)
    (hws2ne : ws2 ≠ []) (hws2 : ∀ c ∈ ws2, isSpaceA c = true)
    (hsizene : sizeD ≠ []) (hsize : ∀ c ∈ sizeD, isDigitA c = true)
    (hwsAne : wsA ≠ []) (hwsA : ∀ c ∈ wsA, isSpaceA c = true)
    (hwsBne : wsB ≠ []) (hwsB : ∀ c ∈ wsB, isSpaceA c = true)
    (hoffne : offD ≠ []) (hoff : ∀ c ∈ offD, isDigitA c = true)
    (hws3ne : ws3 ≠ []) (hws3 : ∀ c ∈ ws3, isSpaceA c = true) :
    (2 ≤ wsA.length ∨ 2 ≤ wsB.length →
      PartInfo.parse (String.mk (ws0 ++ (idxD ++ (':' :: (ws1 ++ (nameD ++ ((ws2 ++ (sizeD ++ (wsA ++ ('@' :: (wsB ++ (offD ++ ws3))))))))))))) = none) ∧
    (∀ cA cB : Char, isSpaceA cA = true → isSpaceA cB = true →
      PartInfo.parse (String.mk (ws0 ++ (idxD ++ (':' :: (ws1 ++ (nameD ++ (ws2 ++ (sizeD ++ (cA :: '@' :: cB :: (offD ++ ws3)))))))))) =
        some ⟨((natOfDigits idxD : Int)), String.mk nameD,
          ((natOfDigits offD : Int)), ((natOfDigits sizeD : Int))⟩) := by
  constructor
  · intro hdisj
    obtain ⟨a, ta, rfl⟩ := List.exists_cons_of_ne_nil hwsAne
    have ha : isSpaceA a = true := hwsA a (List.mem_cons_self a ta)
    obtain ⟨w2, tw2, rfl⟩ := List.exists_cons_of_ne_nil hws2ne
    have hw2 : isSpaceA w2 = true := hws2 w2 (List.mem_cons_self w2 tw2)
    rw [parse_mk]
    rw [parseData_step _ _ _ hws0 hidxne hidx]
    rw [parseAfterColon_step idxD ws1 nameD
      ((w2 :: tw2) ++ (sizeD ++ ((a :: ta) ++ ('@' :: (wsB ++ (offD ++ ws3))))))
      hws1ne hws1 hnamene hname (not_word_of_space hw2)]
    rw [parseAfterName_step idxD nameD (w2 :: tw2) sizeD
      ((a :: ta) ++ ('@' :: (wsB ++ (offD ++ ws3))))
      hws2ne hws2 hsizene hsize (not_digit_of_space ha)]
    cases ta with
    | nil =>
        have hlen : 2 ≤ wsB.length := by
          rcases hdisj with hA | hB
          · simp at hA
          · exact hB
        obtain ⟨b1, tb, rfl⟩ := List.exists_cons_of_ne_nil hwsBne
        have hb1 : isSpaceA b1 = true := hwsB b1 (List.mem_cons_self b1 tb)
        cases tb with
        | nil => simp at hlen
        | cons b2 tb2 =>
            have hb2 : isSpaceA b2 = true := hwsB b2 (by simp)
            show parseAfterSize idxD nameD sizeD
              (a :: '@' :: b1 :: ((b2 :: tb2) ++ (offD ++ ws3))) = none
            rw [parseAfterSize_step _ _ _ _ _ _ ha hb1]
            exact parseAfterAt_none_of_head_not_digit _ _ _ b2 _ (not_digit_of_space hb2)
    | cons a2 ta2 =>
        have ha2 : isSpaceA a2 = true := hwsA a2 (by simp)
        cases ta2 with
        | nil =>
            show parseAfterSize idxD nameD sizeD
              (a :: a2 :: '@' :: (wsB ++ (offD ++ ws3))) = none
            exact parseAfterSize_none_of_not_at _ _ _ a a2 '@' _ (not_at_of_space ha2)
        | cons a3 ta3 =>
            show parseAfterSize idxD nameD sizeD
              (a :: a2 :: a3 :: (ta3 ++ ('@' :: (wsB ++ (offD ++ ws3))))) = none
            exact parseAfterSize_none_of_not_at _ _ _ a a2 a3 _ (not_at_of_space ha2)
  · intro cA cB hcA hcB
    obtain ⟨s3, t3, rfl⟩ := List.exists_cons_of_ne_nil hws3ne
    have hs3 : isSpaceA s3 = true := hws3 s3 (List.mem_cons_self s3 t3)
    have h := parse_structured ws0 idxD ws1 nameD ws2 sizeD offD (s3 :: t3) cA cB
      hws0 hidxne hidx hws1ne hws1 hnamene hname hws2ne hws2 hsizene hsize hcA hcB
      hoffne hoff (not_digit_of_space hs3)
    rw [parse_mk, h]
    simp only [hs3, if_true]
    exact init_natCast _ _ _ _

/-- Witness: two whitespace characters before the at-sign make the
line unparsable. -/
theorem at_sign_spacing_witness :
    PartInfo.parse lineWideAt = none := by
  have h := (at_sign_spacing [] ['0'] [' '] ['a'] [' '] ['1'] [' ', ' '] [' '] ['2'] [' ']
    (by decide) (by decide) (by decide) (by decide) (by decide) (by decide)
    (by decide) (by decide) (by decide) (by decide) (by decide) (by decide)
    (by decide) (by decide) (by decide) (by decide) (by decide) (by decide)
    (by decide)).1 (Or.inl (by decide))
  have e1 : String.mk ([] ++ (['0'] ++ (':' :: ([' '] ++ (['a'] ++ (([' '] ++ (['1'] ++ ([' ', ' '] ++ ('@' :: ([' '] ++ (['2'] ++ [' '])))))))))))) = lineWideAt := by decide
  rw [e1] at h
  exact h

end Mboot
